import Mathlib

/-!
Verification of the customer-transaction ETL pipeline
(`src/data_cleaner.py`, `src/database.py`, `src/etl_pipeline.py`).

Shallow embedding conventions:
* A pandas DataFrame is a list of row records; column operations become
  per-row maps and row filters, preserving order.
* A missing cell (NaN) is `none` of an `Option` type.
* Monetary DECIMAL(10,2) values are modelled as exact integers (scaled
  decimals); no verified property depends on fractional parts.
* Calendar dates are `(year, month, day)` triples of naturals.
* Character classes are ASCII, matching the data processed by the pipeline.
-/

set_option autoImplicit false

namespace ETL

/-- A calendar date `(year, month, day)`. -/
abbrev Date3 := Nat × Nat × Nat

/-- Gregorian leap-year rule, as implemented by Python `datetime`. -/
def isLeapYear (y : Nat) : Bool :=
  (y % 4 == 0 && y % 100 != 0) || y % 400 == 0

/-- Number of days of month `m` in year `y` (Python `datetime` calendar). -/
def daysInMonth (y m : Nat) : Nat :=
  if m == 2 then (if isLeapYear y then 29 else 28)
  else if m == 4 || m == 6 || m == 9 || m == 11 then 30
  else 31

/-- Numeric value of a digit string. -/
def digitsToNat (cs : List Char) : Nat :=
  cs.foldl (fun a c => a * 10 + (c.toNat - 48)) 0

/-- Embeds `datetime.strptime(s, "%Y-%m-%d")` followed by the `datetime`
constructor's calendar check.  CPython's `_strptime` compiles the format to
the regex `\d\d\d\d-(1[0-2]|0[1-9]|[1-9])-(3[01]|[12]\d|0[1-9]|[1-9])`
matched against the whole string: the year takes exactly four digits while
month and day admit one- or two-digit forms; the `datetime` constructor
then requires `1 <= year` and a day that exists in the given month/year.
Since no component may contain `-`, a full match is exactly a split of the
string at `-` into three such components. -/
def parseFlexYMD (s : String) : Option Date3 :=
  match s.toList.splitOn '-' with
  | [ys, ms, ds] =>
    if ys.length = 4 ∧ ys.all Char.isDigit ∧
        1 ≤ ms.length ∧ ms.length ≤ 2 ∧ ms.all Char.isDigit ∧
        1 ≤ ds.length ∧ ds.length ≤ 2 ∧ ds.all Char.isDigit ∧
        1 ≤ digitsToNat ys ∧
        1 ≤ digitsToNat ms ∧ digitsToNat ms ≤ 12 ∧
        1 ≤ digitsToNat ds ∧
        digitsToNat ds ≤ daysInMonth (digitsToNat ys) (digitsToNat ms)
    then some (digitsToNat ys, digitsToNat ms, digitsToNat ds)
    else none
  | _ => none

/-- `validate_date` from `src/data_cleaner.py`: `False` for a missing or
empty cell, otherwise the result of `datetime.strptime(str(v), "%Y-%m-%d")`
(`True` on success, `False` on `ValueError`). -/
def validate_date (v : Option String) : Bool :=
  match v with
  | none => false
  | some s => if s = "" then false else (parseFlexYMD s).isSome

/-- `pd.to_datetime(column, errors="coerce")` from `src/data_cleaner.py`,
modelled on ISO year-month-day strings (the only shape surviving the
`validate_date` filter before the conversion is applied); unparseable or
missing cells coerce to `NaT`, i.e. `none`. -/
def pd_to_datetime (v : Option String) : Option Date3 :=
  v.bind parseFlexYMD

/-- The character class `[a-zA-Z0-9._%+-]` of the email regex. -/
def localChar (c : Char) : Bool :=
  c.isAlphanum || c == '.' || c == '_' || c == '%' || c == '+' || c == '-'

/-- The character class `[a-zA-Z0-9.-]` of the email regex. -/
def domainChar (c : Char) : Bool :=
  c.isAlphanum || c == '.' || c == '-'

/-- The trailing `[a-zA-Z0-9.-]+\.[a-zA-Z]{2,}` of the email pattern.
A match decomposes `r` as `d ++ "." ++ t` with `t` nonempty alphabetic;
since `t` contains no dot, the separating dot is necessarily the last dot
of `r`, so the decomposition is computed from the last dot. -/
def domainTld (r : List Char) : Bool :=
  match r.reverse.dropWhile (fun c => c != '.') with
  | [] => false
  | c :: drev =>
    let trev := r.reverse.takeWhile (fun c => c != '.')
    c == '.' && decide (2 ≤ trev.length) && trev.all Char.isAlpha &&
      !drev.isEmpty && drev.all domainChar

/-- The regex `[a-zA-Z0-9._%+-]+@[a-zA-Z0-9.-]+\.[a-zA-Z]{2,}` matched
against the whole input.  The local class excludes `@`, so the `@` of the
pattern is forced to the first character after the maximal local-class
prefix. -/
def emailCore (cs : List Char) : Bool :=
  let l := cs.takeWhile localChar
  match cs.dropWhile localChar with
  | [] => false
  | c :: r => c == '@' && !l.isEmpty && domainTld r

/-- `re.match(pattern, s)` for the anchored email pattern.  Python's `$`
matches at the end of the string or just before a single trailing newline,
so the pattern also accepts the email shape followed by one `'\n'`. -/
def reMatchEmail (cs : List Char) : Bool :=
  emailCore cs ||
    (match cs.getLast? with
     | some c => c == '\n' && emailCore cs.dropLast
     | none => false)

/-- `validate_email` from `src/data_cleaner.py`: `False` for a missing or
empty cell, otherwise `bool(re.match(pattern, email))` with the pattern
`^[a-zA-Z0-9._%+-]+@[a-zA-Z0-9.-]+\.[a-zA-Z]{2,}$`. -/
def validate_email (v : Option String) : Bool :=
  match v with
  | none => false
  | some s => if s = "" then false else reMatchEmail s.toList

/-- Python `str.strip()` restricted to ASCII whitespace. -/
def pyStrip (cs : List Char) : List Char :=
  ((cs.dropWhile Char.isWhitespace).reverse.dropWhile Char.isWhitespace).reverse

/-- Python `str.title()`: the first letter of each maximal letter group is
uppercased, the remaining letters lowercased (ASCII letters). -/
def pyTitleGo (prevAlpha : Bool) : List Char → List Char
  | [] => []
  | c :: cs =>
    if c.isAlpha then
      (if prevAlpha then c.toLower else c.toUpper) :: pyTitleGo true cs
    else
      c :: pyTitleGo false cs

/-- Python `s.title()` on a character list. -/
def pyTitle (cs : List Char) : List Char :=
  pyTitleGo false cs

/-- The `category_mapping` dict of `standardize_category`, in source order.
The uppercase keys are unreachable (lookups always use a lowercased key)
but are kept for fidelity. -/
def category_mapping : List (List Char × String) :=
  [("electronics".toList, "Electronics"),
   ("ELECTRONICS".toList, "Electronics"),
   ("sports".toList, "Sports"),
   ("SPORTS".toList, "Sports"),
   ("office supplies".toList, "Office Supplies"),
   ("OFFICE SUPPLIES".toList, "Office Supplies"),
   ("office_supplies".toList, "Office Supplies")]

/-- `standardize_category` from `src/data_cleaner.py`: a missing value
becomes `"Unknown"`; otherwise the value is stripped, looked up by its
lowercased form in `category_mapping`, and title-cased when not found. -/
def standardize_category (v : Option String) : String :=
  match v with
  | none => "Unknown"
  | some s =>
    let cs := pyStrip s.toList
    match category_mapping.find? (fun kv => kv.1 == cs.map Char.toLower) with
    | some kv => kv.2
    | none => String.mk (pyTitle cs)

/-- A raw row of `customers.csv` as extracted; text cells are nullable. -/
structure RawCustomer where
  customer_id : Int
  first_name : Option String
  last_name : Option String
  email : Option String
  registration_date : Option String
deriving DecidableEq

/-- A cleaned customer row: names defaulted, date parsed. -/
structure CustomerRow where
  customer_id : Int
  first_name : String
  last_name : String
  email : String
  registration_date : Date3
deriving DecidableEq

/-- A raw row of `products.csv`; `price` is the result of
`pd.to_numeric(..., errors="coerce")`, with `none` for a missing or
non-numeric cell. -/
structure RawProduct where
  product_id : Int
  product_name : Option String
  category : Option String
  price : Option Int
deriving DecidableEq

/-- A cleaned product row. -/
structure ProductRow where
  product_id : Int
  product_name : String
  category : String
  price : Int
deriving DecidableEq

/-- A raw row of `transactions.csv`. -/
structure RawTrans where
  transaction_id : Int
  customer_id : Int
  product_id : Int
  transaction_date : Option String
  quantity : Int
  amount : Int
deriving DecidableEq

/-- A cleaned transaction row with the date parsed. -/
structure TransRow where
  transaction_id : Int
  customer_id : Int
  product_id : Int
  transaction_date : Date3
  quantity : Int
  amount : Int
deriving DecidableEq

/-- A row of the `customer_revenue` table. -/
structure RevenueRow where
  customer_id : Int
  total_amount : Int
  transaction_count : Nat
deriving DecidableEq

/-- Per-row field repairs of the customer cleaner: missing names default
to `"Unknown"` and the registration date is parsed; a row whose date fails
to parse is dropped (`dropna` after the coercing conversion). -/
def customerRepair (r : RawCustomer) : Option CustomerRow :=
  (pd_to_datetime r.registration_date).map (fun d =>
    { customer_id := r.customer_id
      first_name := r.first_name.getD "Unknown"
      last_name := r.last_name.getD "Unknown"
      email := r.email.getD ""
      registration_date := d })

/-- `clean_customers_data` from `src/data_cleaner.py`: keep rows passing
`validate_email`, default missing names to `"Unknown"`, convert
`registration_date` with `pd.to_datetime(errors="coerce")` and drop rows
whose date did not parse. -/
def clean_customers_data (df : List RawCustomer) : List CustomerRow :=
  (df.filter (fun r => validate_email r.email)).filterMap customerRepair

/-- Per-row date parsing of the transaction cleaner (`pd.to_datetime`
applied to the rows surviving the `validate_date` filter). -/
def parseTransRow (r : RawTrans) : Option TransRow :=
  (pd_to_datetime r.transaction_date).map (fun d =>
    { transaction_id := r.transaction_id
      customer_id := r.customer_id
      product_id := r.product_id
      transaction_date := d
      quantity := r.quantity
      amount := r.amount })

/-- The `drop_duplicates` subset of `clean_transactions_data`. -/
def transKey (r : TransRow) : Int × Int × Date3 × Int :=
  (r.customer_id, r.product_id, r.transaction_date, r.amount)

/-- `DataFrame.drop_duplicates` on a key: keep the first occurrence of
each key, in order, dropping every later row with an already-seen key. -/
def dedupGo {α κ : Type} [DecidableEq κ] (key : α → κ) (seen : List κ) :
    List α → List α
  | [] => []
  | x :: xs =>
    if key x ∈ seen then dedupGo key seen xs
    else x :: dedupGo key (key x :: seen) xs

/-- `DataFrame.drop_duplicates(subset=key)` (default `keep="first"`). -/
def dedupBy {α κ : Type} [DecidableEq κ] (key : α → κ) (l : List α) : List α :=
  dedupGo key [] l

/-- The date-valid, date-parsed stage of the transaction cleaner, before
deduplication. -/
def transParsedValid (df : List RawTrans) : List TransRow :=
  (df.filter (fun r => validate_date r.transaction_date)).filterMap parseTransRow

/-- `clean_transactions_data` from `src/data_cleaner.py`: filter rows by
`validate_date`, convert the date, `drop_duplicates` on
`(customer_id, product_id, transaction_date, amount)` keeping the first
occurrence, then keep rows with `quantity > 0` and `amount > 0`. -/
def clean_transactions_data (df : List RawTrans) : List TransRow :=
  (dedupBy transKey (transParsedValid df)).filter
    (fun r => decide (0 < r.quantity) && decide (0 < r.amount))

/-- Per-row field repairs of the product cleaner: category standardised,
missing name defaulted to `"Unknown Product"`; a row whose price cell is
missing or non-numeric carries `NaN`, which fails the `> 0` comparison in
the source and is dropped. -/
def productRepair (r : RawProduct) : Option ProductRow :=
  r.price.map (fun p =>
    { product_id := r.product_id
      product_name := r.product_name.getD "Unknown Product"
      category := standardize_category r.category
      price := p })

/-- `clean_products_data` from `src/data_cleaner.py`: standardise the
category column, default missing product names, coerce prices to numeric
and keep rows with `price > 0` (a `NaN` price fails the comparison). -/
def clean_products_data (df : List RawProduct) : List ProductRow :=
  (df.filterMap productRepair).filter (fun r => decide (0 < r.price))

/-- The report dictionary returned by `validate_data_integrity`. -/
structure IntegrityReport where
  orphaned_customer_transactions : Nat
  orphaned_product_transactions : Nat
  valid_transactions : Nat
  total_transactions : Nat
deriving DecidableEq

/-- `validate_data_integrity` from `src/data_cleaner.py`: retain the
transactions whose `customer_id` occurs among the customers' ids and whose
`product_id` occurs among the products' ids, together with the orphan
counts. -/
def validate_data_integrity (cs : List CustomerRow) (ts : List TransRow)
    (ps : List ProductRow) : List TransRow × IntegrityReport :=
  let valid_customer_ids : List Int := cs.map (fun c => c.customer_id)
  let valid_product_ids : List Int := ps.map (fun p => p.product_id)
  let orphaned_customers :=
    ts.filter (fun t => !decide (t.customer_id ∈ valid_customer_ids))
  let orphaned_products :=
    ts.filter (fun t => !decide (t.product_id ∈ valid_product_ids))
  let valid_transactions :=
    ts.filter (fun t =>
      decide (t.customer_id ∈ valid_customer_ids) &&
      decide (t.product_id ∈ valid_product_ids))
  (valid_transactions,
   { orphaned_customer_transactions := orphaned_customers.length
     orphaned_product_transactions := orphaned_products.length
     valid_transactions := valid_transactions.length
     total_transactions := ts.length })

/-- A SQLite table: its rows plus a flag recording whether the table still
carries the constraints declared by `create_schema`.  Pandas
`to_sql(if_exists="replace")` drops the table and recreates it from the
frame's dtypes, without the original `CHECK`/`UNIQUE`/`PRIMARY KEY`
declarations, which the flag records as `false`. -/
structure Table (ρ : Type) where
  origSchema : Bool
  rows : List ρ
deriving DecidableEq

/-- The SQLite database: the four relations, `none` when a table does not
exist yet. -/
structure DBState where
  customers : Option (Table CustomerRow)
  products : Option (Table ProductRow)
  transactions : Option (Table TransRow)
  customer_revenue : Option (Table RevenueRow)
deriving DecidableEq

/-- A database file that does not exist yet. -/
def emptyDB : DBState := ⟨none, none, none, none⟩

/-- `DatabaseManager.create_schema`: `CREATE TABLE IF NOT EXISTS` for the
four tables — an existing table (whatever its actual schema) is left
untouched, a missing one is created empty with the declared constraints. -/
def create_schema (db : DBState) : DBState :=
  { customers := some (db.customers.getD ⟨true, []⟩)
    products := some (db.products.getD ⟨true, []⟩)
    transactions := some (db.transactions.getD ⟨true, []⟩)
    customer_revenue := some (db.customer_revenue.getD ⟨true, []⟩) }

/-- `DatabaseManager.load_customers`: `df.to_sql("customers", conn,
if_exists="replace")` — the table is dropped and recreated from the frame
without the constraints of `create_schema`, holding exactly the frame's
rows. -/
def load_customers (db : DBState) (df : List CustomerRow) : DBState :=
  { db with customers := some ⟨false, df⟩ }

/-- `DatabaseManager.load_products` (same `to_sql` replace semantics). -/
def load_products (db : DBState) (df : List ProductRow) : DBState :=
  { db with products := some ⟨false, df⟩ }

/-- `DatabaseManager.load_transactions` (same `to_sql` replace
semantics). -/
def load_transactions (db : DBState) (df : List TransRow) : DBState :=
  { db with transactions := some ⟨false, df⟩ }

/-- The `GROUP BY t.customer_id` aggregation of
`calculate_customer_revenue`: one row per distinct customer id occurring
in `transactions`, carrying `SUM(amount)` and `COUNT(*)` of that
customer's rows. -/
def revenueGroups (ts : List TransRow) : List RevenueRow :=
  (dedupBy (fun c : Int => c) (ts.map (fun t => t.customer_id))).map (fun c =>
    let grp := ts.filter (fun t => decide (t.customer_id = c))
    { customer_id := c
      total_amount := (grp.map (fun t => t.amount)).sum
      transaction_count := grp.length })

/-- `INSERT OR REPLACE` of a batch of rows into `customer_revenue`, whose
primary key is `customer_id`: each inserted row deletes any existing row
with the same key and is appended. -/
def upsertRevenue (old : List RevenueRow) (gs : List RevenueRow) :
    List RevenueRow :=
  gs.foldl (fun acc g =>
    acc.filter (fun r => !decide (r.customer_id = g.customer_id)) ++ [g]) old

/-- `DatabaseManager.calculate_customer_revenue`: `INSERT OR REPLACE INTO
customer_revenue SELECT customer_id, SUM(amount), COUNT(*) FROM
transactions GROUP BY customer_id`.  It upserts the group rows into the
existing relation — rows of customers absent from `transactions` are not
deleted.  Fails (`none`) when a referenced table does not exist. -/
def calculate_customer_revenue (db : DBState) : Option DBState :=
  match db.transactions, db.customer_revenue with
  | some tt, some rt =>
    let rt' : Table RevenueRow :=
      ⟨rt.origSchema, upsertRevenue rt.rows (revenueGroups tt.rows)⟩
    some { db with customer_revenue := some rt' }
  | _, _ => none

/-- The load phase of `ETLPipeline.load_data`: `create_schema`, then
`load_customers`, `load_products`, `load_transactions` in source order. -/
def load_phase (db : DBState) (cc : List CustomerRow) (cp : List ProductRow)
    (ct : List TransRow) : DBState :=
  load_transactions (load_products (load_customers (create_schema db) cc) cp) ct

/-- `ETLPipeline.run` restricted to its store effects: clean the three
frames, cross-validate the transactions, load everything and compute the
revenue aggregate. -/
def pipeline_run (db : DBState) (rawC : List RawCustomer)
    (rawT : List RawTrans) (rawP : List RawProduct) : Option DBState :=
  let cc := clean_customers_data rawC
  let ct := clean_transactions_data rawT
  let cp := clean_products_data rawP
  let vt := (validate_data_integrity cc ct cp).1
  calculate_customer_revenue (load_phase db cc cp vt)

/-- The storage-level constraints `create_schema` declares on `customers`:
`customer_id INTEGER PRIMARY KEY` and `email TEXT UNIQUE NOT NULL`
(`NOT NULL` holds by construction of `CustomerRow`). -/
def customerInsertOK (rows : List CustomerRow) (r : CustomerRow) : Bool :=
  rows.all (fun x => x.customer_id != r.customer_id) &&
  rows.all (fun x => x.email != r.email)

/-- The constraints `create_schema` declares on `products`:
`product_id INTEGER PRIMARY KEY` and `CHECK (price > 0)`. -/
def productInsertOK (rows : List ProductRow) (r : ProductRow) : Bool :=
  rows.all (fun x => x.product_id != r.product_id) && decide (0 < r.price)

/-- The constraints `create_schema` declares on `transactions`:
`transaction_id INTEGER PRIMARY KEY`, `CHECK (quantity > 0)` and
`CHECK (amount > 0)`.  The declared `FOREIGN KEY` clauses are not checked
even under the original schema: `sqlite3.connect` leaves
`PRAGMA foreign_keys` off, so SQLite parses but never enforces them. -/
def transInsertOK (rows : List TransRow) (r : TransRow) : Bool :=
  rows.all (fun x => x.transaction_id != r.transaction_id) &&
  decide (0 < r.quantity) && decide (0 < r.amount)

/-- A direct `INSERT INTO customers` against the store: fails when the
table is missing, or when the table still carries the declared schema and
the row violates a constraint; a table recreated by pandas carries no
constraints, so the insert always succeeds there. -/
def sqlInsertCustomer (db : DBState) (r : CustomerRow) : Option DBState :=
  match db.customers with
  | none => none
  | some t =>
    if t.origSchema && !customerInsertOK t.rows r then none
    else some { db with customers := some ⟨t.origSchema, t.rows ++ [r]⟩ }

/-- A direct `INSERT INTO products` (same constraint discipline). -/
def sqlInsertProduct (db : DBState) (r : ProductRow) : Option DBState :=
  match db.products with
  | none => none
  | some t =>
    if t.origSchema && !productInsertOK t.rows r then none
    else some { db with products := some ⟨t.origSchema, t.rows ++ [r]⟩ }

/-- A direct `INSERT INTO transactions` (same constraint discipline). -/
def sqlInsertTransaction (db : DBState) (r : TransRow) : Option DBState :=
  match db.transactions with
  | none => none
  | some t =>
    if t.origSchema && !transInsertOK t.rows r then none
    else some { db with transactions := some ⟨t.origSchema, t.rows ++ [r]⟩ }

/-- The rows of `old` whose key is hit by no row of the inserted batch. -/
def revKeyAbsent (gs : List RevenueRow) (r : RevenueRow) : Bool :=
  !(gs.any (fun g => decide (r.customer_id = g.customer_id)))

/-- Modelled from the spec: the claim's "exact calendar format
`YYYY-MM-DD`" — four-digit year, two-digit month `01`-`12`, two-digit day
valid for that month and year (calendar years start at 1, as in Python
`datetime`).  Used to compare the specified date grammar with the
behaviour of `validate_date`. -/
def specCalendarYMD (s : String) : Bool :=
  match s.toList.splitOn '-' with
  | [ys, ms, ds] =>
    if ys.length = 4 ∧ ys.all Char.isDigit ∧
        ms.length = 2 ∧ ms.all Char.isDigit ∧
        ds.length = 2 ∧ ds.all Char.isDigit ∧
        1 ≤ digitsToNat ys ∧
        1 ≤ digitsToNat ms ∧ digitsToNat ms ≤ 12 ∧
        1 ≤ digitsToNat ds ∧
        digitsToNat ds ≤ daysInMonth (digitsToNat ys) (digitsToNat ms)
    then true
    else false
  | _ => false

/-- A well-formed customer row used to instantiate universally quantified
results on concrete data. -/
def sampleCustomer : CustomerRow :=
  { customer_id := 1, first_name := "Ada", last_name := "Day"
    email := "a@b.co", registration_date := (2023, 1, 1) }

/-- A well-formed product row for concrete instantiations. -/
def sampleProduct : ProductRow :=
  { product_id := 10, product_name := "Widget"
    category := "Electronics", price := 5 }

/-- A well-formed cleaned transaction row for concrete instantiations. -/
def sampleTrans : TransRow :=
  { transaction_id := 100, customer_id := 1, product_id := 10
    transaction_date := (2023, 1, 2), quantity := 1, amount := 5 }

/-- A well-formed raw transaction row for concrete instantiations. -/
def sampleRawTrans : RawTrans :=
  { transaction_id := 100, customer_id := 1, product_id := 10
    transaction_date := some "2023-01-02", quantity := 1, amount := 5 }

/-- A well-formed raw customer row for concrete instantiations. -/
def sampleRawCustomer : RawCustomer :=
  { customer_id := 1, first_name := some "Ada", last_name := some "Day"
    email := some "a@b.co", registration_date := some "2023-01-01" }

/-- A well-formed raw product row for concrete instantiations. -/
def sampleRawProduct : RawProduct :=
  { product_id := 10, product_name := some "Widget"
    category := some "ELECTRONICS", price := some 5 }

/-- The store state after the load phase of a one-row-per-table run,
starting from a fresh database. -/
def sampleDB : DBState :=
  load_phase emptyDB [sampleCustomer] [sampleProduct] [sampleTrans]

/-! ### Helper lemmas about deduplication and the revenue upsert -/

theorem dedupGo_sublist {α κ : Type} [DecidableEq κ] (key : α → κ) :
    ∀ (l : List α) (seen : List κ), (dedupGo key seen l).Sublist l
  | [], _ => List.Sublist.slnil
  | x :: xs, seen => by
    simp only [dedupGo]
    split
    · exact (dedupGo_sublist key xs seen).cons x
    · exact (dedupGo_sublist key xs _).cons₂ x

theorem dedupBy_sublist {α κ : Type} [DecidableEq κ] (key : α → κ)
    (l : List α) : (dedupBy key l).Sublist l :=
  dedupGo_sublist key l []

theorem dedupGo_keys {α κ : Type} [DecidableEq κ] (key : α → κ) :
    ∀ (l : List α) (seen : List κ),
      ((dedupGo key seen l).map key).Nodup ∧
      ∀ k ∈ (dedupGo key seen l).map key, k ∉ seen
  | [], seen => by simp [dedupGo]
  | x :: xs, seen => by
    simp only [dedupGo]
    split
    · rename_i hx
      exact dedupGo_keys key xs seen
    · rename_i hx
      have ih := dedupGo_keys key xs (key x :: seen)
      refine ⟨?_, ?_⟩
      · simp only [List.map_cons, List.nodup_cons]
        refine ⟨fun hk => ?_, ih.1⟩
        exact (ih.2 (key x) hk) (List.mem_cons_self _ _)
      · intro k hk
        simp only [List.map_cons, List.mem_cons] at hk
        rcases hk with rfl | hk
        · exact hx
        · intro hks
          exact (ih.2 k hk) (List.mem_cons_of_mem _ hks)

theorem dedupBy_keys_nodup {α κ : Type} [DecidableEq κ] (key : α → κ)
    (l : List α) : ((dedupBy key l).map key).Nodup :=
  (dedupGo_keys key l []).1

theorem mem_map_key_dedupGo {α κ : Type} [DecidableEq κ] (key : α → κ) :
    ∀ (l : List α) (seen : List κ) (k : κ),
      k ∈ (dedupGo key seen l).map key ↔ (k ∈ l.map key ∧ k ∉ seen)
  | [], seen, k => by simp [dedupGo]
  | x :: xs, seen, k => by
    simp only [dedupGo]
    split
    · rename_i hx
      rw [mem_map_key_dedupGo key xs seen k]
      simp only [List.map_cons, List.mem_cons]
      constructor
      · rintro ⟨hk, hks⟩
        exact ⟨Or.inr hk, hks⟩
      · rintro ⟨hk | hk, hks⟩
        · exact absurd (hk ▸ hx) hks
        · exact ⟨hk, hks⟩
    · rename_i hx
      simp only [List.map_cons, List.mem_cons,
        mem_map_key_dedupGo key xs (key x :: seen) k]
      constructor
      · rintro (rfl | ⟨hk, hks⟩)
        · exact ⟨Or.inl rfl, hx⟩
        · exact ⟨Or.inr hk, fun h => hks (Or.inr h)⟩
      · rintro ⟨rfl | hk, hks⟩
        · exact Or.inl rfl
        · by_cases hkx : k = key x
          · exact Or.inl hkx
          · exact Or.inr ⟨hk, by
              rintro (h' | h')
              · exact hkx h'
              · exact hks h'⟩

theorem mem_map_key_dedupBy {α κ : Type} [DecidableEq κ] (key : α → κ)
    (l : List α) (k : κ) :
    k ∈ (dedupBy key l).map key ↔ k ∈ l.map key := by
  rw [dedupBy, mem_map_key_dedupGo]
  simp

theorem dedupGo_find? {α κ : Type} [DecidableEq κ] (key : α → κ) :
    ∀ (l : List α) (seen : List κ) (r : α), r ∈ dedupGo key seen l →
      l.find? (fun x => decide (key x = key r)) = some r
  | [], _, r, hr => by simp [dedupGo] at hr
  | x :: xs, seen, r, hr => by
    have hmem : ∀ (s : List κ), r ∈ dedupGo key s xs → key r ∉ s := by
      intro s hrs
      exact (dedupGo_keys key xs s).2 (key r) (List.mem_map_of_mem key hrs)
    simp only [dedupGo] at hr
    by_cases hx : key x ∈ seen
    · rw [if_pos hx] at hr
      have hne : key x ≠ key r := fun h => (hmem seen hr) (h ▸ hx)
      rw [List.find?_cons_of_neg _ (by simpa using hne)]
      exact dedupGo_find? key xs seen r hr
    · rw [if_neg hx] at hr
      rcases List.mem_cons.mp hr with rfl | hr
      · exact List.find?_cons_of_pos _ (by simp)
      · have hne : key x ≠ key r := by
          intro h
          exact (hmem (key x :: seen) hr) (h ▸ List.mem_cons_self _ _)
        rw [List.find?_cons_of_neg _ (by simpa using hne)]
        exact dedupGo_find? key xs _ r hr

theorem dedupBy_find? {α κ : Type} [DecidableEq κ] (key : α → κ)
    (l : List α) (r : α) (hr : r ∈ dedupBy key l) :
    l.find? (fun x => decide (key x = key r)) = some r :=
  dedupGo_find? key l [] r hr

theorem nodup_filter_eq_singleton {α : Type} [DecidableEq α] :
    ∀ (l : List α) (a : α), a ∈ l → l.Nodup →
      l.filter (fun x => decide (x = a)) = [a]
  | [], a, ha, _ => absurd ha (List.not_mem_nil a)
  | x :: xs, a, ha, hn => by
    rcases List.mem_cons.mp ha with rfl | ha
    · have : xs.filter (fun y => decide (y = a)) = [] := by
        rw [List.filter_eq_nil_iff]
        intro b hb
        simp only [decide_eq_true_eq]
        rintro rfl
        exact (List.nodup_cons.mp hn).1 hb
      simp [List.filter_cons, this]
    · have hxa : x ≠ a := by
        rintro rfl
        exact (List.nodup_cons.mp hn).1 ha
      simp only [List.filter_cons, decide_eq_true_eq, if_neg hxa]
      exact nodup_filter_eq_singleton xs a ha (List.nodup_cons.mp hn).2

theorem nodup_filter_eq_nil {α : Type} [DecidableEq α]
    (l : List α) (a : α) (ha : a ∉ l) :
    l.filter (fun x => decide (x = a)) = [] := by
  rw [List.filter_eq_nil_iff]
  intro b hb
  simp only [decide_eq_true_eq]
  rintro rfl
  exact ha hb

theorem upsertRevenue_nil (old : List RevenueRow) :
    upsertRevenue old [] = old := rfl

theorem upsertRevenue_closed :
    ∀ (gs : List RevenueRow) (old : List RevenueRow),
      ((gs.map (fun g => g.customer_id)).Nodup) →
      upsertRevenue old gs = old.filter (revKeyAbsent gs) ++ gs
  | [], old, _ => by
    have : old.filter (revKeyAbsent []) = old := by
      have h := List.filter_congr
        (fun (r : RevenueRow) (_ : r ∈ old) =>
          (by simp [revKeyAbsent] : revKeyAbsent [] r = true))
      rw [h, List.filter_true]
    simp [upsertRevenue, this]
  | g :: gs, old, hn => by
    have hg : g.customer_id ∉ gs.map (fun x => x.customer_id) :=
      (List.nodup_cons.mp (by simpa using hn)).1
    have hgs : (gs.map (fun x => x.customer_id)).Nodup :=
      (List.nodup_cons.mp (by simpa using hn)).2
    have step : upsertRevenue old (g :: gs) =
        upsertRevenue
          (old.filter (fun r => !decide (r.customer_id = g.customer_id)) ++ [g])
          gs := rfl
    rw [step, upsertRevenue_closed gs _ hgs, List.filter_append]
    have hgkeep : List.filter (revKeyAbsent gs) [g] = [g] := by
      simp only [List.filter_cons, List.filter_nil]
      rw [if_pos]
      simp only [revKeyAbsent, Bool.not_eq_true']
      rw [List.any_eq_false]
      intro x hx
      simp only [decide_eq_true_eq]
      intro h
      exact hg (h ▸ List.mem_map_of_mem _ hx)
    rw [hgkeep, List.filter_filter]
    have hfun : (old.filter fun a =>
        revKeyAbsent gs a && !decide (a.customer_id = g.customer_id)) =
        old.filter (revKeyAbsent (g :: gs)) := by
      apply List.filter_congr
      intro r _
      simp only [revKeyAbsent, List.any_cons, Bool.not_or]
      exact Bool.and_comm _ _
    rw [hfun, List.append_assoc, List.singleton_append]

theorem upsertRevenue_idem (old gs : List RevenueRow)
    (hn : (gs.map (fun g => g.customer_id)).Nodup) :
    upsertRevenue (upsertRevenue old gs) gs = upsertRevenue old gs := by
  rw [upsertRevenue_closed gs old hn, upsertRevenue_closed gs _ hn,
    List.filter_append, List.filter_filter]
  have h1 : (old.filter fun a => revKeyAbsent gs a && revKeyAbsent gs a) =
      old.filter (revKeyAbsent gs) := by
    apply List.filter_congr
    intro r _
    simp
  have h2 : gs.filter (revKeyAbsent gs) = [] := by
    rw [List.filter_eq_nil_iff]
    intro g hg h
    simp only [revKeyAbsent, Bool.not_eq_true'] at h
    rw [List.any_eq_false] at h
    have := h g hg
    simp at this
  rw [h1, h2, List.append_nil]

theorem revenueGroups_keys (ts : List TransRow) :
    (revenueGroups ts).map (fun r => r.customer_id) =
      dedupBy (fun c : Int => c) (ts.map (fun t => t.customer_id)) := by
  simp only [revenueGroups, List.map_map]
  exact List.map_id' _

theorem revenueGroups_keys_nodup (ts : List TransRow) :
    ((revenueGroups ts).map (fun r => r.customer_id)).Nodup := by
  rw [revenueGroups_keys]
  have h := dedupBy_keys_nodup (fun c : Int => c)
    (ts.map (fun t => t.customer_id))
  simpa using h

theorem mem_revenueGroups_keys (ts : List TransRow) (C : Int) :
    (C ∈ (revenueGroups ts).map (fun r => r.customer_id)) ↔
      C ∈ ts.map (fun t => t.customer_id) := by
  rw [revenueGroups_keys]
  have h := mem_map_key_dedupBy (fun c : Int => c)
    (ts.map (fun t => t.customer_id)) C
  simpa using h

theorem clean_customers_eq_filter_map (df : List RawCustomer) :
    clean_customers_data df =
      (df.filter (fun r => validate_email r.email &&
          (pd_to_datetime r.registration_date).isSome)).map
        (fun r =>
          { customer_id := r.customer_id
            first_name := r.first_name.getD "Unknown"
            last_name := r.last_name.getD "Unknown"
            email := r.email.getD ""
            registration_date := (pd_to_datetime r.registration_date).getD (0, 0, 0) }) := by
  induction df with
  | nil => rfl
  | cons r rs ih =>
    simp only [clean_customers_data] at ih
    by_cases he : validate_email r.email = true
    · rcases hd : pd_to_datetime r.registration_date with _ | d
      · simp [clean_customers_data, List.filter_cons, List.filterMap_cons,
          customerRepair, he, hd, ih]
      · simp [clean_customers_data, List.filter_cons, List.filterMap_cons,
          customerRepair, he, hd, ih]
    · simp [clean_customers_data, List.filter_cons, List.filterMap_cons,
        customerRepair, he, ih]

/-! ### Claim theorems -/

/-- C2: every transaction surviving `validate_data_integrity` has a
`customer_id` occurring in the customers table and a `product_id`
occurring in the products table; conversely every input transaction
passing both membership tests is retained. -/
theorem C2_referential_integrity (cs : List CustomerRow) (ts : List TransRow)
    (ps : List ProductRow) :
    (∀ t ∈ (validate_data_integrity cs ts ps).1,
      t ∈ ts ∧ t.customer_id ∈ cs.map (fun c => c.customer_id) ∧
        t.product_id ∈ ps.map (fun p => p.product_id)) ∧
    (∀ t ∈ ts, t.customer_id ∈ cs.map (fun c => c.customer_id) →
      t.product_id ∈ ps.map (fun p => p.product_id) →
      t ∈ (validate_data_integrity cs ts ps).1) := by
  constructor
  · intro t ht
    simp only [validate_data_integrity, List.mem_filter, Bool.and_eq_true,
      decide_eq_true_eq] at ht
    exact ⟨ht.1, ht.2.1, ht.2.2⟩
  · intro t ht h1 h2
    simp only [validate_data_integrity, List.mem_filter, Bool.and_eq_true,
      decide_eq_true_eq]
    exact ⟨ht, h1, h2⟩

/-- Witness for C2 on a concrete one-row instance. -/
theorem C2_referential_integrity_witness :
    sampleTrans ∈ [sampleTrans] ∧
    sampleTrans.customer_id ∈ [sampleCustomer].map (fun c => c.customer_id) ∧
    sampleTrans.product_id ∈ [sampleProduct].map (fun p => p.product_id) :=
  (C2_referential_integrity [sampleCustomer] [sampleTrans] [sampleProduct]).1
    sampleTrans (by decide)

/-- C10: each cleaner and the integrity checker emit no more rows than
received; every output row is an input row transformed by the per-field
repair function only; and surviving rows keep their input order.  All
three facts are packaged as: the output is a sublist (order-preserving
selection) of the per-row-repaired input. -/
theorem C10_row_provenance (rc : List RawCustomer) (rt : List RawTrans)
    (rp : List RawProduct) (cs : List CustomerRow) (ts : List TransRow)
    (ps : List ProductRow) :
    ((clean_customers_data rc).Sublist (rc.filterMap customerRepair) ∧
      (clean_customers_data rc).length ≤ rc.length) ∧
    ((clean_transactions_data rt).Sublist (rt.filterMap parseTransRow) ∧
      (clean_transactions_data rt).length ≤ rt.length) ∧
    ((clean_products_data rp).Sublist (rp.filterMap productRepair) ∧
      (clean_products_data rp).length ≤ rp.length) ∧
    (((validate_data_integrity cs ts ps).1).Sublist ts ∧
      ((validate_data_integrity cs ts ps).1).length ≤ ts.length) := by
  have hc : (clean_customers_data rc).Sublist (rc.filterMap customerRepair) :=
    (List.filter_sublist _).filterMap customerRepair
  have ht : (clean_transactions_data rt).Sublist (rt.filterMap parseTransRow) := by
    refine List.Sublist.trans (List.filter_sublist _) ?_
    refine List.Sublist.trans (dedupBy_sublist transKey (transParsedValid rt)) ?_
    exact (List.filter_sublist _).filterMap parseTransRow
  have hp : (clean_products_data rp).Sublist (rp.filterMap productRepair) :=
    List.filter_sublist _
  have hv : ((validate_data_integrity cs ts ps).1).Sublist ts :=
    List.filter_sublist _
  exact ⟨⟨hc, le_trans hc.length_le (List.length_filterMap_le _ _)⟩,
    ⟨ht, le_trans ht.length_le (List.length_filterMap_le _ _)⟩,
    ⟨hp, le_trans hp.length_le (List.length_filterMap_le _ _)⟩,
    ⟨hv, hv.length_le⟩⟩

/-- C6 counterexample: `validate_date` accepts `"2023-2-5"`, a string that
is not in the claim's exact `YYYY-MM-DD` grammar (its month and day are
single-digit), refuting the claimed "true if and only if two-digit
month/two-digit day" characterisation. -/
theorem C6_counterexample :
    validate_date (some "2023-2-5") = true ∧
    specCalendarYMD "2023-2-5" = false := by
  constructor <;> decide

/-- C6 amended: `validate_date` returns false for missing or empty input;
it accepts every date in the claimed strict `YYYY-MM-DD` calendar grammar,
but also accepts one-digit month/day variants (Python's `%m`/`%d` match
one or two digits); impossible calendar dates such as `2023-02-30` are
rejected, with leap years handled. -/
theorem C6_amended :
    (∀ s : String, specCalendarYMD s = true → validate_date (some s) = true) ∧
    validate_date none = false ∧
    validate_date (some "") = false ∧
    validate_date (some "2023-2-5") = true ∧
    validate_date (some "2023-02-30") = false ∧
    validate_date (some "2024-02-29") = true ∧
    validate_date (some "2023-02-29") = false := by
  refine ⟨?_, by decide, by decide, by decide, by decide, by decide, by decide⟩
  intro s h
  by_cases hs : s = ""
  · subst hs
    simp [specCalendarYMD] at h
  · simp only [validate_date, if_neg hs, parseFlexYMD]
    simp only [specCalendarYMD] at h
    rcases hsp : s.toList.splitOn '-' with _ | ⟨ys, _ | ⟨ms, _ | ⟨ds, _ | ⟨e, tl4⟩⟩⟩⟩
    · rw [hsp] at h
      simp at h
    · rw [hsp] at h
      simp at h
    · rw [hsp] at h
      simp at h
    · rw [hsp] at h
      dsimp only at h
      split at h
      · rename_i hP
        obtain ⟨p1, p2, p3, p4, p5, p6, p7, p8, p9, p10, p11⟩ := hP
        have hcond : ys.length = 4 ∧ ys.all Char.isDigit = true ∧
            1 ≤ ms.length ∧ ms.length ≤ 2 ∧ ms.all Char.isDigit = true ∧
            1 ≤ ds.length ∧ ds.length ≤ 2 ∧ ds.all Char.isDigit = true ∧
            1 ≤ digitsToNat ys ∧
            1 ≤ digitsToNat ms ∧ digitsToNat ms ≤ 12 ∧
            1 ≤ digitsToNat ds ∧
            digitsToNat ds ≤ daysInMonth (digitsToNat ys) (digitsToNat ms) :=
          ⟨p1, p2, by omega, by omega, p4, by omega, by omega,
            p6, p7, p8, p9, p10, p11⟩
        dsimp only
        rw [if_pos hcond]
        rfl
      · exact absurd h (by simp)
    · rw [hsp] at h
      simp at h

/-- Witness for the general acceptance direction of the amended C6. -/
theorem C6_amended_witness : validate_date (some "2023-02-05") = true :=
  C6_amended.1 "2023-02-05" (by decide)

/-- In a list of characters all satisfying `p` followed by a character
refuting `p`, `takeWhile`/`dropWhile` split exactly at that character. -/
theorem takeWhile_dropWhile_split (p : Char → Bool) :
    ∀ (l : List Char) (x : Char) (r : List Char),
      (∀ a ∈ l, p a = true) → p x = false →
      (l ++ x :: r).takeWhile p = l ∧ (l ++ x :: r).dropWhile p = x :: r
  | [], x, r, _, hx => by
    simp [List.takeWhile_cons, List.dropWhile_cons, hx]
  | a :: l, x, r, hall, hx => by
    have ha := hall a (List.mem_cons_self a l)
    have ih := takeWhile_dropWhile_split p l x r
      (fun b hb => hall b (List.mem_cons_of_mem a hb)) hx
    simp only [List.cons_append, List.takeWhile_cons, List.dropWhile_cons,
      ha, if_true]
    exact ⟨by rw [ih.1], by rw [ih.2]⟩

/-- C7 counterexample: the code accepts `"a@b.co\n"`, a string outside the
claim's end-anchored shape (it ends in a newline, not in two alphabetic
characters), because Python's `$` also matches just before a trailing
newline.  This refutes the claimed "if and only if" characterisation. -/
theorem C7_counterexample :
    validate_email (some "a@b.co\n") = true ∧
    emailCore "a@b.co\n".toList = false := by
  constructor <;> decide

/-- C7 amended: `validate_email` is false for missing/empty input and for
every string without `'@'`; it accepts every string of the claimed
`local@domain.tld` shape; but the acceptance is not exactly the
end-anchored shape: a single trailing newline after the shape is also
accepted (Python `$` semantics). -/
theorem C7_amended :
    validate_email none = false ∧
    validate_email (some "") = false ∧
    (∀ s : String, '@' ∉ s.toList → validate_email (some s) = false) ∧
    (∀ l d t : List Char, l ≠ [] → l.all localChar = true →
      d ≠ [] → d.all domainChar = true →
      t.all Char.isAlpha = true → 2 ≤ t.length →
      validate_email (some (String.mk (l ++ '@' :: (d ++ '.' :: t)))) = true) ∧
    validate_email (some "a@b.co\n") = true := by
  refine ⟨by decide, by decide, ?_, ?_, by decide⟩
  · intro s hat
    have hcore : ∀ cs : List Char, '@' ∉ cs → emailCore cs = false := by
      intro cs hcs
      simp only [emailCore]
      rcases hdw : cs.dropWhile localChar with _ | ⟨c, r⟩
      · rfl
      · have hc : c ∈ cs := by
          have : c ∈ cs.dropWhile localChar := by rw [hdw]; exact List.mem_cons_self c r
          exact (List.dropWhile_sublist localChar).mem this
        have : (c == '@') = false := by
          simp only [beq_eq_false_iff_ne, ne_eq]
          rintro rfl
          exact hcs hc
        simp [this]
    simp only [validate_email]
    split
    · rfl
    · simp only [reMatchEmail, hcore s.toList hat, Bool.false_or]
      rcases hgl : s.toList.getLast? with _ | ⟨c⟩
      · rfl
      · have hec : emailCore s.toList.dropLast = false := by
          apply hcore
          intro hmem
          exact hat ((List.dropLast_sublist s.toList).mem hmem)
        simp only [hgl]
        rw [hec, Bool.and_false]
  · intro l d t hl hlc hd hdc hta htl
    have hs : String.mk (l ++ '@' :: (d ++ '.' :: t)) ≠ "" := by
      intro hcon
      rw [show ("" : String) = String.mk [] from rfl] at hcon
      have hdat := congrArg String.data hcon
      simp only [List.append_eq_nil, List.cons_ne_nil] at hdat
      try exact hl hdat.1
      try exact hdat
    simp only [validate_email, if_neg hs, reMatchEmail]
    have hat : localChar '@' = false := by decide
    have hsplit := takeWhile_dropWhile_split localChar l '@' (d ++ '.' :: t)
      (fun a ha => by
        have := List.all_eq_true.mp hlc a ha
        simpa using this) hat
    have hcore : emailCore (l ++ '@' :: (d ++ '.' :: t)) = true := by
      simp only [emailCore, hsplit.1, hsplit.2]
      have hdot : (fun c : Char => c != '.') '.' = false := by decide
      have hrev : (d ++ '.' :: t).reverse = t.reverse ++ '.' :: d.reverse := by
        simp [List.reverse_append]
      have htrev : ∀ a ∈ t.reverse, (fun c : Char => c != '.') a = true := by
        intro a ha
        have : a.isAlpha = true :=
          List.all_eq_true.mp (by simpa using hta) a (List.mem_reverse.mp ha)
        have : a ≠ '.' := by
          rintro rfl
          simp at this
        simpa using this
      have hsplit2 := takeWhile_dropWhile_split (fun c : Char => c != '.')
        t.reverse '.' d.reverse htrev hdot
      simp only [domainTld, hrev, hsplit2.1, hsplit2.2]
      have h1 : ('@' == '@') = true := by decide
      have h2 : ('.' == '.') = true := by decide
      have h3 : l.isEmpty = false := by
        cases l
        · exact absurd rfl hl
        · rfl
      have h4 : d.reverse.isEmpty = false := by
        cases hdr : d.reverse with
        | nil => exact absurd (by simpa using congrArg List.reverse hdr) hd
        | cons a as => rfl
      have h5 : t.reverse.length = t.length := List.length_reverse t
      have h6 : t.reverse.all Char.isAlpha = true := by
        rw [List.all_eq_true] at hta ⊢
        intro a ha
        exact hta a (List.mem_reverse.mp ha)
      have h7 : d.reverse.all domainChar = true := by
        rw [List.all_eq_true] at hdc ⊢
        intro a ha
        exact hdc a (List.mem_reverse.mp ha)
      simp [h1, h2, h3, h4, h5, h6, h7, htl]
    show (emailCore (l ++ '@' :: (d ++ '.' :: t)) || _) = true
    rw [hcore, Bool.true_or]

/-- Witness for the universally quantified parts of the amended C7. -/
theorem C7_amended_witness :
    validate_email (some "nope") = false ∧
    validate_email (some (String.mk (['a'] ++ '@' :: (['b'] ++ '.' :: ['c', 'o'])))) = true :=
  ⟨C7_amended.2.2.1 "nope" (by decide),
   C7_amended.2.2.2.1 ['a'] ['b'] ['c', 'o'] (by decide) (by decide)
     (by decide) (by decide) (by decide) (by decide)⟩

/-- C5 counterexample: a missing category value does receive a
placeholder — `standardize_category` maps `NaN` to `"Unknown"`, and the
product cleaner therefore emits `"Unknown"` as the category of a row whose
raw category is missing, refuting the claim that only `product_name` is
defaulted. -/
theorem C5_counterexample :
    standardize_category none = "Unknown" ∧
    (clean_products_data
      [{ product_id := 1, product_name := some "Widget",
         category := none, price := some 5 }]).map (fun r => r.category) =
      ["Unknown"] := by
  constructor <;> decide

/-- C5 amended: the canonical lookup and title-case fallback behave as
claimed (`"ELECTRONICS"`/`"electronics"`/`"Electronics"` all map to
`"Electronics"`, `"gadgets"` to `"Gadgets"`, unrecognised values are
title-cased after stripping, lookup hits return the canonical spelling),
a missing `product_name` defaults to `"Unknown Product"` — but a missing
category is also defaulted, to the placeholder `"Unknown"`. -/
theorem C5_amended :
    standardize_category (some "ELECTRONICS") = "Electronics" ∧
    standardize_category (some "electronics") = "Electronics" ∧
    standardize_category (some "Electronics") = "Electronics" ∧
    standardize_category (some "SPORTS") = "Sports" ∧
    standardize_category (some "office supplies") = "Office Supplies" ∧
    standardize_category (some "office_supplies") = "Office Supplies" ∧
    standardize_category (some "gadgets") = "Gadgets" ∧
    standardize_category none = "Unknown" ∧
    (∀ s : String, ∀ kv ∈ category_mapping,
      category_mapping.find?
        (fun kv => kv.1 == (pyStrip s.toList).map Char.toLower) = some kv →
      standardize_category (some s) = kv.2) ∧
    (∀ s : String,
      category_mapping.find?
        (fun kv => kv.1 == (pyStrip s.toList).map Char.toLower) = none →
      standardize_category (some s) = String.mk (pyTitle (pyStrip s.toList))) ∧
    (clean_products_data
      [{ product_id := 1, product_name := none,
         category := some "ELECTRONICS", price := some 5 }]).map
        (fun r => r.product_name) = ["Unknown Product"] := by
  refine ⟨by decide, by decide, by decide, by decide, by decide, by decide,
    by decide, by decide, ?_, ?_, by decide⟩
  · intro s kv _ hfind
    simp only [standardize_category, hfind]
  · intro s hfind
    simp only [standardize_category, hfind]

/-- Witness for the universally quantified parts of the amended C5. -/
theorem C5_amended_witness :
    standardize_category (some " Office_Supplies ") = "Office Supplies" ∧
    standardize_category (some "quirky gadgets") =
      String.mk (pyTitle (pyStrip "quirky gadgets".toList)) :=
  ⟨C5_amended.2.2.2.2.2.2.2.2.1 " Office_Supplies "
      ("office_supplies".toList, "Office Supplies") (by decide) (by decide),
   C5_amended.2.2.2.2.2.2.2.2.2.1 "quirky gadgets" (by decide)⟩

/-- C8 counterexample: two raw transaction rows identical on the tuple
`(customer_id, product_id, transaction_date, amount)` with a negative
amount produce zero output rows, not "exactly one": the duplicate is
removed by deduplication and the retained first occurrence is then dropped
by the positivity filter. -/
theorem C8_counterexample :
    clean_transactions_data
      [{ transaction_id := 1, customer_id := 1, product_id := 10,
         transaction_date := some "2023-01-02", quantity := 1, amount := -1 },
       { transaction_id := 2, customer_id := 1, product_id := 10,
         transaction_date := some "2023-01-02", quantity := 1, amount := -1 }] =
      [] := by
  decide

/-- C8 amended: after cleaning, at most one row per deduplication tuple
survives (the output keys are pairwise distinct), and every surviving row
is the first occurrence of its tuple in the date-valid parsed input; the
deduplication runs after the date filter and before the positivity filter,
so the first occurrence survives only if it also passes the
quantity/amount filter. -/
theorem C8_amended (df : List RawTrans) :
    ((clean_transactions_data df).map transKey).Nodup ∧
    (∀ r ∈ clean_transactions_data df,
      (transParsedValid df).find?
        (fun x => decide (transKey x = transKey r)) = some r) := by
  constructor
  · have h1 : ((dedupBy transKey (transParsedValid df)).map transKey).Nodup :=
      dedupBy_keys_nodup transKey (transParsedValid df)
    exact h1.sublist ((List.filter_sublist _).map transKey)
  · intro r hr
    exact dedupBy_find? transKey _ r (List.mem_of_mem_filter hr)

/-- Witness for the first-occurrence property of the amended C8. -/
theorem C8_amended_witness :
    (transParsedValid [sampleRawTrans, sampleRawTrans]).find?
      (fun x => decide (transKey x = transKey sampleTrans)) = some sampleTrans :=
  (C8_amended [sampleRawTrans, sampleRawTrans]).2 sampleTrans (by decide)

/-- C1 counterexample: `calculate_customer_revenue` uses
`INSERT OR REPLACE` without first clearing `customer_revenue`, so it is an
upsert, not a full recomputation.  Starting from a state whose
`transactions` table is empty but whose `customer_revenue` table holds a
row for customer 1, the aggregation leaves that row in place although
customer 1 has zero transactions in the current snapshot — the claim says
the row must be absent. -/
theorem C1_counterexample :
    calculate_customer_revenue
      { customers := some ⟨false, []⟩, products := some ⟨false, []⟩,
        transactions := some ⟨false, []⟩,
        customer_revenue := some ⟨true,
          [{ customer_id := 1, total_amount := 5, transaction_count := 1 }]⟩ } =
    some
      { customers := some ⟨false, []⟩, products := some ⟨false, []⟩,
        transactions := some ⟨false, []⟩,
        customer_revenue := some ⟨true,
          [{ customer_id := 1, total_amount := 5, transaction_count := 1 }]⟩ } := by
  decide

/-- C1 amended: after `calculate_customer_revenue`, every customer id `C`
present in the transactions table has exactly one `customer_revenue` row,
holding the sum and count of that customer's transactions; but the
relation is not recomputed from scratch — rows of customers absent from
the current transactions are left exactly as they were, so a customer with
zero transactions has no row only if it had none before (e.g. on a fresh
database). -/
theorem C1_amended (db : DBState) (tt : Table TransRow) (rt : Table RevenueRow)
    (h1 : db.transactions = some tt) (h2 : db.customer_revenue = some rt)
    (C : Int) :
    ∃ rt' : Table RevenueRow,
      calculate_customer_revenue db =
        some { db with customer_revenue := some rt' } ∧
      (C ∈ tt.rows.map (fun t => t.customer_id) →
        rt'.rows.filter (fun r => decide (r.customer_id = C)) =
          [{ customer_id := C,
             total_amount :=
               ((tt.rows.filter (fun t => decide (t.customer_id = C))).map
                 (fun t => t.amount)).sum,
             transaction_count :=
               (tt.rows.filter (fun t => decide (t.customer_id = C))).length }]) ∧
      (C ∉ tt.rows.map (fun t => t.customer_id) →
        rt'.rows.filter (fun r => decide (r.customer_id = C)) =
          rt.rows.filter (fun r => decide (r.customer_id = C))) := by
  refine ⟨⟨rt.origSchema, upsertRevenue rt.rows (revenueGroups tt.rows)⟩,
    ?_, ?_, ?_⟩
  · simp only [calculate_customer_revenue, h1, h2]
  · intro hC
    have hnodupg := revenueGroups_keys_nodup tt.rows
    rw [upsertRevenue_closed _ _ hnodupg, List.filter_append]
    have hmemdd : C ∈ dedupBy (fun c : Int => c)
        (tt.rows.map (fun t => t.customer_id)) := by
      have hmg := (mem_revenueGroups_keys tt.rows C).mpr hC
      rw [revenueGroups_keys] at hmg
      exact hmg
    have hnodupdd : (dedupBy (fun c : Int => c)
        (tt.rows.map (fun t => t.customer_id))).Nodup := by
      have h := dedupBy_keys_nodup (fun c : Int => c)
        (tt.rows.map (fun t => t.customer_id))
      simpa using h
    have hold : (rt.rows.filter (revKeyAbsent (revenueGroups tt.rows))).filter
        (fun r => decide (r.customer_id = C)) = [] := by
      rw [List.filter_filter, List.filter_eq_nil_iff]
      intro r hr hcontra
      rw [Bool.and_eq_true] at hcontra
      obtain ⟨hceq, habs⟩ := hcontra
      rw [decide_eq_true_eq] at hceq
      simp only [revKeyAbsent, Bool.not_eq_true', List.any_eq_false,
        decide_eq_true_eq] at habs
      have hmg : C ∈ (revenueGroups tt.rows).map (fun r => r.customer_id) :=
        (mem_revenueGroups_keys tt.rows C).mpr hC
      obtain ⟨g, hg, hgc⟩ := List.mem_map.mp hmg
      exact habs g hg (hceq.trans hgc.symm)
    have hgfilter : (revenueGroups tt.rows).filter
        (fun r => decide (r.customer_id = C)) =
        [{ customer_id := C,
           total_amount :=
             ((tt.rows.filter (fun t => decide (t.customer_id = C))).map
               (fun t => t.amount)).sum,
           transaction_count :=
             (tt.rows.filter (fun t => decide (t.customer_id = C))).length }] := by
      simp only [revenueGroups, List.filter_map]
      have hcomp : ((fun r : RevenueRow => decide (r.customer_id = C)) ∘
          (fun c : Int =>
            ({ customer_id := c,
               total_amount :=
                 ((tt.rows.filter (fun t => decide (t.customer_id = c))).map
                   (fun t => t.amount)).sum,
               transaction_count :=
                 (tt.rows.filter (fun t => decide (t.customer_id = c))).length } :
              RevenueRow))) = fun c : Int => decide (c = C) := by
        funext c
        rfl
      rw [hcomp, nodup_filter_eq_singleton _ C hmemdd hnodupdd]
      rfl
    rw [hold, hgfilter, List.nil_append]
  · intro hC
    have hnodupg := revenueGroups_keys_nodup tt.rows
    rw [upsertRevenue_closed _ _ hnodupg, List.filter_append]
    have hnotg : C ∉ (revenueGroups tt.rows).map (fun r => r.customer_id) :=
      fun h => hC ((mem_revenueGroups_keys tt.rows C).mp h)
    have hg0 : (revenueGroups tt.rows).filter
        (fun r => decide (r.customer_id = C)) = [] := by
      rw [List.filter_eq_nil_iff]
      intro g hg hcon
      rw [decide_eq_true_eq] at hcon
      exact hnotg (List.mem_map.mpr ⟨g, hg, hcon⟩)
    rw [hg0, List.append_nil, List.filter_filter]
    apply List.filter_congr
    intro r _
    by_cases hrc : r.customer_id = C
    · have habs : revKeyAbsent (revenueGroups tt.rows) r = true := by
        simp only [revKeyAbsent, Bool.not_eq_true']
        rw [List.any_eq_false]
        intro x hx hh
        rw [decide_eq_true_eq] at hh
        exact hnotg (List.mem_map.mpr ⟨x, hx, hh.symm.trans hrc⟩)
      simp [habs, hrc]
    · simp [hrc]

/-- Witness for the amended C1 on a one-transaction store. -/
theorem C1_amended_witness :
    ∃ rt' : Table RevenueRow,
      calculate_customer_revenue sampleDB =
        some { sampleDB with customer_revenue := some rt' } ∧
      ((1 : Int) ∈ [sampleTrans].map (fun t => t.customer_id) →
        rt'.rows.filter (fun r => decide (r.customer_id = 1)) =
          [{ customer_id := 1,
             total_amount :=
               (([sampleTrans].filter (fun t => decide (t.customer_id = 1))).map
                 (fun t => t.amount)).sum,
             transaction_count :=
               ([sampleTrans].filter (fun t => decide (t.customer_id = 1))).length }]) ∧
      ((1 : Int) ∉ [sampleTrans].map (fun t => t.customer_id) →
        rt'.rows.filter (fun r => decide (r.customer_id = 1)) =
          ([] : List RevenueRow).filter (fun r => decide (r.customer_id = 1))) :=
  C1_amended sampleDB ⟨false, [sampleTrans]⟩ ⟨true, []⟩ rfl rfl 1

/-- C9: running the pipeline a second time on the same raw input leaves
the whole store, and in particular the persisted `customer_revenue`
relation, unchanged: the second run's table loads replace equal contents
with equal contents, and the aggregation upsert is idempotent. -/
theorem C9_pipeline_idempotent (db : DBState) (rawC : List RawCustomer)
    (rawT : List RawTrans) (rawP : List RawProduct) (db1 db2 : DBState)
    (h1 : pipeline_run db rawC rawT rawP = some db1)
    (h2 : pipeline_run db1 rawC rawT rawP = some db2) :
    db2 = db1 ∧ db2.customer_revenue = db1.customer_revenue := by
  simp only [pipeline_run, load_phase, load_transactions, load_products,
    load_customers, create_schema, calculate_customer_revenue,
    Option.getD_some, Option.some.injEq] at h1 h2
  subst h1
  subst h2
  have hidem := upsertRevenue_idem
    ((db.customer_revenue.getD ⟨true, []⟩).rows)
    (revenueGroups (validate_data_integrity (clean_customers_data rawC)
      (clean_transactions_data rawT) (clean_products_data rawP)).1)
    (revenueGroups_keys_nodup _)
  constructor
  · simp only [Option.getD_some, hidem]
  · simp only [Option.getD_some, hidem]

/-- Witness for C9 on a concrete one-row-per-table run from a fresh
database. -/
theorem C9_pipeline_idempotent_witness :
    ({ customers := some ⟨false, [sampleCustomer]⟩,
       products := some ⟨false, [sampleProduct]⟩,
       transactions := some ⟨false, [sampleTrans]⟩,
       customer_revenue := some ⟨true,
         [{ customer_id := 1, total_amount := 5, transaction_count := 1 }]⟩ } :
      DBState) =
      { customers := some ⟨false, [sampleCustomer]⟩,
        products := some ⟨false, [sampleProduct]⟩,
        transactions := some ⟨false, [sampleTrans]⟩,
        customer_revenue := some ⟨true,
          [{ customer_id := 1, total_amount := 5, transaction_count := 1 }]⟩ } ∧
    ({ customers := some ⟨false, [sampleCustomer]⟩,
       products := some ⟨false, [sampleProduct]⟩,
       transactions := some ⟨false, [sampleTrans]⟩,
       customer_revenue := some ⟨true,
         [{ customer_id := 1, total_amount := 5, transaction_count := 1 }]⟩ } :
      DBState).customer_revenue =
      some ⟨true,
        [{ customer_id := 1, total_amount := 5, transaction_count := 1 }]⟩ :=
  C9_pipeline_idempotent emptyDB [sampleRawCustomer] [sampleRawTrans]
    [sampleRawProduct] _ _ (by decide) (by decide)

/-- C3 counterexample: after the load phase of a concrete run, direct
writes violating every claimed storage constraint succeed — a customer
with a duplicate email, a product with a negative price, and a transaction
with negative quantity and amount referencing nonexistent customer and
product are all inserted without error, because pandas `to_sql(replace)`
recreated the three tables without the constraints of `create_schema`. -/
theorem C3_counterexample :
    (sqlInsertCustomer sampleDB
      { customer_id := 2, first_name := "Bob", last_name := "Ray",
        email := "a@b.co", registration_date := (2023, 2, 2) }).isSome = true ∧
    (sqlInsertProduct sampleDB
      { product_id := 11, product_name := "Bad", category := "Sports",
        price := -5 }).isSome = true ∧
    (sqlInsertTransaction sampleDB
      { transaction_id := 101, customer_id := 999, product_id := 999,
        transaction_date := (2023, 3, 3), quantity := -1,
        amount := -1 }).isSome = true := by
  refine ⟨by decide, by decide, by decide⟩

/-- C3 amended: `create_schema` does declare the claimed constraints, and
inserts into tables still carrying that schema enforce them (negative
price rejected, non-positive quantity rejected, duplicate email rejected);
but the load phase replaces `customers`, `products` and `transactions` via
pandas `to_sql(if_exists="replace")`, which drops the constrained tables
and recreates them bare, so after any load phase every write into those
three relations succeeds regardless of the claimed constraints.  (Foreign
keys are additionally never enforced: `sqlite3` leaves
`PRAGMA foreign_keys` off.) -/
theorem C3_amended :
    (∀ (db : DBState) (cc : List CustomerRow) (cp : List ProductRow)
        (ct : List TransRow) (r : CustomerRow),
      (sqlInsertCustomer (load_phase db cc cp ct) r).isSome = true) ∧
    (∀ (db : DBState) (cc : List CustomerRow) (cp : List ProductRow)
        (ct : List TransRow) (r : ProductRow),
      (sqlInsertProduct (load_phase db cc cp ct) r).isSome = true) ∧
    (∀ (db : DBState) (cc : List CustomerRow) (cp : List ProductRow)
        (ct : List TransRow) (r : TransRow),
      (sqlInsertTransaction (load_phase db cc cp ct) r).isSome = true) ∧
    sqlInsertProduct (create_schema emptyDB)
      { product_id := 1, product_name := "Bad", category := "Sports",
        price := -5 } = none ∧
    sqlInsertTransaction (create_schema emptyDB)
      { transaction_id := 1, customer_id := 1, product_id := 1,
        transaction_date := (2023, 1, 1), quantity := 0, amount := 5 } = none ∧
    (sqlInsertCustomer (create_schema emptyDB) sampleCustomer).bind
      (fun db => sqlInsertCustomer db
        { customer_id := 2, first_name := "Bob", last_name := "Ray",
          email := "a@b.co", registration_date := (2023, 2, 2) }) = none := by
  refine ⟨?_, ?_, ?_, by decide, by decide, by decide⟩
  · intro db cc cp ct r
    simp [sqlInsertCustomer, load_phase, load_transactions, load_products,
      load_customers]
  · intro db cc cp ct r
    simp [sqlInsertProduct, load_phase, load_transactions, load_products,
      load_customers]
  · intro db cc cp ct r
    simp [sqlInsertTransaction, load_phase, load_transactions, load_products,
      load_customers]

/-- C4 counterexample: two raw customer rows sharing `customer_id = 1`,
both passing the email and date filters, are both persisted by the load —
no collapse to a single row happens anywhere (the cleaner never
deduplicates by id, and the pandas-recreated table has no primary key). -/
theorem C4_counterexample :
    (load_phase emptyDB
      (clean_customers_data
        [{ customer_id := 1, first_name := some "Ada", last_name := some "Day",
           email := some "a@b.co", registration_date := some "2023-01-01" },
         { customer_id := 1, first_name := some "Eve", last_name := some "Fox",
           email := some "e@f.co", registration_date := some "2023-02-02" }])
      [] []).customers =
    some ⟨false,
      [{ customer_id := 1, first_name := "Ada", last_name := "Day",
         email := "a@b.co", registration_date := (2023, 1, 1) },
       { customer_id := 1, first_name := "Eve", last_name := "Fox",
         email := "e@f.co", registration_date := (2023, 2, 2) }]⟩ := by
  decide

/-- C4 amended: the persisted customers relation is exactly the list of
raw rows passing the email and date-parse filters, in input order, with
names defaulted and dates parsed — rows sharing a `customer_id` all
persist; duplicates by id do not collapse and no last-write-wins occurs. -/
theorem C4_amended (db : DBState) (df : List RawCustomer)
    (cp : List ProductRow) (ct : List TransRow) :
    (load_phase db (clean_customers_data df) cp ct).customers =
      some ⟨false,
        (df.filter (fun r => validate_email r.email &&
            (pd_to_datetime r.registration_date).isSome)).map
          (fun r =>
            { customer_id := r.customer_id
              first_name := r.first_name.getD "Unknown"
              last_name := r.last_name.getD "Unknown"
              email := r.email.getD ""
              registration_date :=
                (pd_to_datetime r.registration_date).getD (0, 0, 0) })⟩ := by
  simp only [load_phase, load_transactions, load_products, load_customers,
    create_schema]
  rw [clean_customers_eq_filter_map]

example : validate_date (some "2023-02-05") = true := by decide
example : validate_date (some "2023-2-5") = true := by decide
example : validate_date (some "2023-02-30") = false := by decide
example : validate_date (some "2024-02-29") = true := by decide
example : validate_date (some "2023-02-29") = false := by decide
example : validate_date (some "23-01-01") = false := by decide
example : validate_date (some "0000-01-01") = false := by decide
example : validate_date (some "") = false := by decide
example : validate_date none = false := by decide
example : validate_email (some "a@b.co") = true := by decide
example : validate_email (some "a@b.c") = false := by decide
example : validate_email (some "ab.co") = false := by decide
example : validate_email (some "a@b.co\n") = true := by decide
example : validate_email (some "") = false := by decide
example : validate_email (some "john.doe+x@mail-srv.example.com") = true := by decide
example : standardize_category (some "ELECTRONICS") = "Electronics" := by decide
example : standardize_category (some "gadgets") = "Gadgets" := by decide
example : standardize_category none = "Unknown" := by decide
example : standardize_category (some " office_supplies ") = "Office Supplies" := by decide

end ETL
